import Mathlib

/-
Verification development for the dataframe-go ingestion engine
(imports/sql.go, imports/jsonl.go, exports/excel.go, and the row-reversal
utility).  The Go sources are shallowly embedded: pure helper functions
become Lean functions, the two loaders become explicit recursions over the
row sources, and the external collaborators (database driver, JSON decoder,
the Go standard library string-to-float and time parsers) are represented by
explicit inputs or by a record of parsing oracles.  Machine integers are
modelled as Int with explicit range checks where the source checks bit
width.
-/

set_option autoImplicit false

/-- A context.Context, modelled by the index of the first cancellation poll
that observes the context as cancelled: none means the context is never
cancelled; some k means the k-th and all later ctx.Err calls (0-indexed,
counted across one loader call) return the cancellation error.  Cancellation
in Go is monotone, which this representation captures. -/
def Ctx := Option Nat

/-- Result of one ctx.Err poll, the poll being the n-th performed by the call. -/
def ctxErr (ctx : Ctx) (poll : Nat) : Bool :=
  match ctx with
  | none => false
  | some k => decide (k ≤ poll)

/-- Coercion targets named by the error messages of the sources
(to float64, to Int, to bool, to time.Time with a layout, to generic data type). -/
inductive CoerceTarget where
  | float64
  | int
  | bool
  | time (layout : String)
  | generic
deriving DecidableEq

/-- Errors returned by the loaders, structured after the error values the
sources construct (errors.New, fmt.Errorf, dataframe.ErrNoRows, ctx.Err). -/
inductive GoError where
  | invalidDatabase
  | noSeriesFound
  | errNoRows
  | cantForce (val : String) (target : CoerceTarget) (row : Nat) (field : String)
  | unknownField (row : Nat) (field : String)
  | ctxCanceled
  | other (msg : String)
deriving DecidableEq

/-- Values stored in dataframe cells.  Floats carry the representation
returned by the parsing oracle, times an abstract instant; converter
results may be arbitrary Go values, represented opaquely by obj. -/
inductive GoValue where
  | nil
  | str (s : String)
  | int (n : Int)
  | float (rep : String)
  | time (t : Int)
  | obj (tag : String)
deriving DecidableEq

/-- The concrete type carried by a Converter override (only the distinction
time.Time versus anything else matters to the sources), and the value used
to key a NewSeriesGeneric call. -/
inductive ConcreteTy where
  | time
  | goString (s : String)
  | otherTag (t : String)
deriving DecidableEq

/-- imports.Converter: a concrete type exemplar plus a ConverterFunc from the
raw string to a value or an error. -/
structure Converter where
  concreteType : ConcreteTy
  converterFunc : String → Except String GoValue

/-- The runtime kind of a value stored in a DictateDataType map, as the type
switches of the sources distinguish them. -/
inductive Dictate where
  | float64
  | int64
  | bool
  | string
  | time
  | newSerieser
  | conv (c : Converter)
  | other (label : String)

/-- Storage type of one series, as selected by the schema-resolution switches. -/
inductive SeriesKind where
  | string
  | float64
  | int64
  | time
  | custom
  | generic (concrete : ConcreteTy)
deriving DecidableEq

/-- dataframe.SeriesInit: a preallocation size (Go int). -/
structure SeriesInit where
  size : Int
deriving DecidableEq

/-- One column of the destination table: a name, a storage kind and the cell
values.  Preallocated placeholder cells are nil. -/
structure Series where
  name : String
  kind : SeriesKind
  values : List GoValue
deriving DecidableEq

/-- dataframe.DataFrame: the ordered list of series. -/
structure DataFrame where
  series : List Series
deriving DecidableEq

/-- Result of a loader call: a dataframe, a returned error, or a panic. -/
inductive Outcome where
  | ok (df : DataFrame)
  | err (e : GoError)
  | panicked (msg : String)
deriving DecidableEq

/-- The external parsing oracles of the Go standard library: strconv.ParseFloat
(returning the stored representation on success) and time.Parse (layout then
value, returning an abstract instant).  Both are collaborators outside this
repository, so they are inputs of the embedding. -/
structure GoStdlib where
  parseFloat : String → Option String
  timeParse : String → String → Option Int

/-- NewSeries constructor shared by all storage kinds: a SeriesInit of size n
prefills the series with n nil placeholder rows. -/
def mkSeries (name : String) (kind : SeriesKind) (init : Option SeriesInit) : Series :=
  Series.mk name kind (List.replicate (match init with
    | some i => i.size.toNat
    | none => 0) GoValue.nil)

/-- dataframe.NRows: the row count, read off the first series. -/
def dfNRows (df : DataFrame) : Nat :=
  match df.series with
  | [] => 0
  | s :: _ => s.values.length

/-- dataframe.Names: the column names in order. -/
def dfNames (df : DataFrame) : List String :=
  df.series.map Series.name

/-- dataframe.Append of a row of nil placeholders (one per series). -/
def dfAppendNil (df : DataFrame) : DataFrame :=
  DataFrame.mk (df.series.map (fun s => Series.mk s.name s.kind (s.values ++ [GoValue.nil])))

/-- Lookup in an insert-values map (Go map iteration collapsed to first match;
upsert keeps keys unique). -/
def rowLookup (vals : List (String × GoValue)) (name : String) : Option GoValue :=
  (vals.find? (fun kv => kv.1 == name)).map Prod.snd

/-- dataframe.UpdateRow: set the cell at idx of every series named in the map. -/
def dfUpdateRow (df : DataFrame) (idx : Nat) (vals : List (String × GoValue)) : DataFrame :=
  DataFrame.mk (df.series.map (fun s =>
    match rowLookup vals s.name with
    | some v => Series.mk s.name s.kind (s.values.set idx v)
    | none => s))

/-- dataframe.Remove: delete the row at idx from every series. -/
def dfRemoveRow (df : DataFrame) (idx : Nat) : DataFrame :=
  DataFrame.mk (df.series.map (fun s => Series.mk s.name s.kind (s.values.eraseIdx idx)))

/-- The trailing cleanup loop of LoadFromSQL: remove the current last row n times. -/
def removeLastN : Nat → DataFrame → DataFrame
  | 0, df => df
  | n + 1, df => removeLastN n (dfRemoveRow df (dfNRows df - 1))

/-- dataframe.ReorderColumns: rebuild the series list in the order of the
given names (each name selecting the first series carrying it). -/
def dfReorder (df : DataFrame) (ns : List String) : DataFrame :=
  DataFrame.mk (ns.filterMap (fun n => df.series.find? (fun s => s.name == n)))

/-- Map write with overwrite-on-duplicate-key, the Go map insert. -/
def upsert {β : Type} (l : List (String × β)) (k : String) (v : β) : List (String × β) :=
  if l.any (fun kv => kv.1 == k) then
    l.map (fun kv => if kv.1 == k then (k, v) else kv)
  else l ++ [(k, v)]

/-- Go map lookup in a DictateDataType map. -/
def dictLookup (dict : List (String × Dictate)) (name : String) : Option Dictate :=
  (dict.find? (fun kv => kv.1 == name)).map Prod.snd

/-- Decimal digit run accumulator for strconv.ParseInt. -/
def parseDigitsAux : List Char → Nat → Option Nat
  | [], acc => some acc
  | c :: cs, acc =>
    if c.isDigit then parseDigitsAux cs (acc * 10 + (c.toNat - 48)) else none

/-- strconv.ParseInt(s, 10, 64): optional sign, a nonempty run of decimal
digits, and a 64-bit signed range check. -/
def parseInt64? (s : String) : Option Int :=
  match s.toList with
  | [] => none
  | c :: cs =>
    let signDigits : Bool × List Char :=
      if c = '-' then (true, cs)
      else if c = '+' then (false, cs)
      else (false, c :: cs)
    match signDigits.2 with
    | [] => none
    | d :: ds =>
      match parseDigitsAux (d :: ds) 0 with
      | none => none
      | some m =>
        let n : Int := if signDigits.1 then -(m : Int) else (m : Int)
        if -(2 ^ 63) ≤ n ∧ n ≤ 2 ^ 63 - 1 then some n else none

/-- The boolean-token coercion of the query path: true, TRUE, True and 1 give
int64 1; false, FALSE, False and 0 give int64 0; anything else is a
cannot-force-to-bool error tagged with the 0-based row and the field. -/
def boolCoerce (val : String) (idx : Nat) (field : String) : Except GoError GoValue :=
  if val = "true" ∨ val = "TRUE" ∨ val = "True" ∨ val = "1" then Except.ok (GoValue.int 1)
  else if val = "false" ∨ val = "FALSE" ∨ val = "False" ∨ val = "0" then Except.ok (GoValue.int 0)
  else Except.error (GoError.cantForce val CoerceTarget.bool idx field)

/-- MySQL temporal layout of the sources. -/
def mysqlLayout : String := "2006-01-02 15:04:05"

/-- time.RFC3339, the PostgreSQL default layout of the sources. -/
def rfc3339Layout : String := "2006-01-02T15:04:05Z07:00"

/-- The string-family database type names of both switches in sql.go. -/
def stringFamily : List String := ["VARCHAR", "TEXT", "NVARCHAR", "MEDIUMTEXT", "LONGTEXT"]

/-- The float-family database type names of both switches in sql.go. -/
def floatFamily : List String := ["FLOAT", "FLOAT4", "FLOAT8", "DOUBLE", "DECIMAL", "NUMERIC"]

/-- The integer-family database type names of the value-coercion switch
(BOOL is a separate case there). -/
def intFamily : List String := ["INT", "TINYINT", "INT2", "INT4", "INT8", "MEDIUMINT", "SMALLINT", "BIGINT"]

/-- The integer-and-boolean family of the schema switch (BOOL included). -/
def schemaIntFamily : List String := "BOOL" :: intFamily

/-- The temporal-family database type names of both switches in sql.go. -/
def timeFamily : List String := ["DATETIME", "TIMESTAMP", "TIMESTAMPTZ"]

/-- Storage kind selected for a dictated type in sql.go (line 156-176); the
default arm keys the generic series by the database type name string. -/
def dictSeriesKindSQL (d : Dictate) (typ : String) : SeriesKind :=
  match d with
  | Dictate.float64 => SeriesKind.float64
  | Dictate.int64 => SeriesKind.int64
  | Dictate.bool => SeriesKind.int64
  | Dictate.string => SeriesKind.string
  | Dictate.time => SeriesKind.time
  | Dictate.newSerieser => SeriesKind.custom
  | Dictate.conv c =>
    match c.concreteType with
    | ConcreteTy.time => SeriesKind.time
    | ct => SeriesKind.generic ct
  | Dictate.other _ => SeriesKind.generic (ConcreteTy.goString typ)

/-- Schema resolution for one query-path column (sql.go lines 148-199):
dictated type first (when options are present and the map is nonempty),
else the database type name through the fixed dialect table, else String. -/
def sqlSeriesFor (dict : List (String × Dictate)) (hasOpts : Bool) (init : Option SeriesInit)
    (name typ : String) : Series :=
  let fallback : Series :=
    if stringFamily.contains typ then mkSeries name SeriesKind.string init
    else if floatFamily.contains typ then mkSeries name SeriesKind.float64 init
    else if schemaIntFamily.contains typ then mkSeries name SeriesKind.int64 init
    else if timeFamily.contains typ then mkSeries name SeriesKind.time init
    else mkSeries name SeriesKind.string init
  if hasOpts && !dict.isEmpty then
    match dictLookup dict name with
    | some d => mkSeries name (dictSeriesKindSQL d typ) init
    | none => fallback
  else fallback

/-- Value coercion for a dictated type in the query path (sql.go lines 235-284). -/
def sqlDictCoerce (lib : GoStdlib) (database : Int) (idx : Nat) (fieldName : String)
    (d : Dictate) (val : String) : Except GoError GoValue :=
  match d with
  | Dictate.float64 =>
    match lib.parseFloat val with
    | some f => Except.ok (GoValue.float f)
    | none => Except.error (GoError.cantForce val CoerceTarget.float64 idx fieldName)
  | Dictate.int64 =>
    match parseInt64? val with
    | some n => Except.ok (GoValue.int n)
    | none => Except.error (GoError.cantForce val CoerceTarget.int idx fieldName)
  | Dictate.string => Except.ok (GoValue.str val)
  | Dictate.bool => boolCoerce val idx fieldName
  | Dictate.time =>
    let layout := if database = 1 then mysqlLayout else rfc3339Layout
    match lib.timeParse layout val with
    | some t => Except.ok (GoValue.time t)
    | none =>
      match parseInt64? val with
      | some sec => Except.ok (GoValue.time sec)
      | none => Except.error (GoError.cantForce val (CoerceTarget.time layout) idx fieldName)
  | Dictate.newSerieser => Except.ok (GoValue.str val)
  | Dictate.conv c =>
    match c.converterFunc val with
    | Except.ok cv => Except.ok cv
    | Except.error _ => Except.error (GoError.cantForce val CoerceTarget.generic idx fieldName)
  | Dictate.other _ => Except.ok (GoValue.str val)

/-- Value coercion by reported column type in the query path (sql.go lines 290-332). -/
def sqlColTypeCoerce (lib : GoStdlib) (database : Int) (idx : Nat)
    (colType fieldName : String) (val : String) : Except GoError GoValue :=
  if stringFamily.contains colType then Except.ok (GoValue.str val)
  else if floatFamily.contains colType then
    match lib.parseFloat val with
    | some f => Except.ok (GoValue.float f)
    | none => Except.error (GoError.cantForce val CoerceTarget.float64 idx fieldName)
  else if intFamily.contains colType then
    match parseInt64? val with
    | some n => Except.ok (GoValue.int n)
    | none => Except.error (GoError.cantForce val CoerceTarget.int idx fieldName)
  else if colType == "BOOL" then boolCoerce val idx fieldName
  else if timeFamily.contains colType then
    let layout := if database = 1 then mysqlLayout else rfc3339Layout
    match lib.timeParse layout val with
    | some t => Except.ok (GoValue.time t)
    | none =>
      match parseInt64? val with
      | some sec => Except.ok (GoValue.time sec)
      | none => Except.error (GoError.cantForce val (CoerceTarget.time layout) idx fieldName)
  else Except.ok (GoValue.str val)

/-- Coercion of one raw column value (sql.go lines 220-332): a NULL is stored
as an explicit nil without running any coercion; otherwise the dictated type
is consulted first (when options are present and the map is nonempty), the
reported column type otherwise. -/
def sqlCoerceValue (lib : GoStdlib) (database : Int) (dict : List (String × Dictate))
    (hasOpts : Bool) (idx : Nat) (colType fieldName : String) (val? : Option String) :
    Except GoError GoValue :=
  match val? with
  | none => Except.ok GoValue.nil
  | some val =>
    if hasOpts && !dict.isEmpty then
      match dictLookup dict fieldName with
      | some d => sqlDictCoerce lib database idx fieldName d val
      | none => sqlColTypeCoerce lib database idx colType fieldName val
    else sqlColTypeCoerce lib database idx colType fieldName val

/-- Column metadata reported by the driver: name and database type name. -/
structure SQLColumn where
  name : String
  typ : String
deriving DecidableEq

/-- The driver cursor: column metadata, the raw rows (a NULL cell is none),
and the error reported by rows.Err after iteration. -/
structure Cursor where
  cols : List SQLColumn
  rows : List (List (Option String))
  finalErr : Option GoError

/-- The statement-like object passed to LoadFromSQL: it exposes query
execution with no leading query text, or with an explicit query string, or
neither of the two capabilities. -/
inductive Stmt where
  | prepared (run : Except GoError Cursor)
  | textual (run : String → Except GoError Cursor)
  | invalid

/-- imports.SQLLoadOptions. -/
structure SQLLoadOptions where
  knownRowCount : Option Int
  dictateDataType : List (String × Dictate)
  database : Int
  query : String

/-- The capability probe of sql.go lines 113-132: pick the argument-only form
or the query-text form, or report that the object exposes neither. -/
def execStmt (stmt : Stmt) (options : Option SQLLoadOptions) : Option (Except GoError Cursor) :=
  match stmt with
  | Stmt.prepared run => some run
  | Stmt.textual run =>
    some (run (match options with
      | some o => o.query
      | none => ""))
  | Stmt.invalid => none

/-- The message of the panic raised for a statement exposing neither
capability (sql.go line 131). -/
def invalidStmtMsg : String := "interface conversion: not a valid Stmt"

/-- Build the insert-values map for one scanned row (sql.go lines 214-333),
aborting on the first coercion error. -/
def sqlInsertVals (lib : GoStdlib) (database : Int) (dict : List (String × Dictate))
    (hasOpts : Bool) (idx : Nat) :
    List (SQLColumn × Option String) → List (String × GoValue) →
    Except GoError (List (String × GoValue))
  | [], acc => Except.ok acc
  | (c, v) :: rest, acc =>
    match sqlCoerceValue lib database dict hasOpts idx c.typ c.name v with
    | Except.error e => Except.error e
    | Except.ok gv => sqlInsertVals lib database dict hasOpts idx rest (upsert acc c.name gv)

/-- The row-materialization loop of LoadFromSQL (lines 202-340): coerce every
column of the row, then append-then-update (no preallocation) or update in
place (preallocated), and continue with the next row. -/
def sqlRowLoop (lib : GoStdlib) (database : Int) (dict : List (String × Dictate))
    (hasOpts : Bool) (init : Option SeriesInit) (cols : List SQLColumn) :
    List (List (Option String)) → Nat → DataFrame → Except GoError DataFrame
  | [], _, df => Except.ok df
  | r :: rs, idx, df =>
    match sqlInsertVals lib database dict hasOpts idx (cols.zip r) [] with
    | Except.error e => Except.error e
    | Except.ok vals =>
      let df := if init.isNone then dfAppendNil df else df
      let df := dfUpdateRow df idx vals
      sqlRowLoop lib database dict hasOpts init cols rs (idx + 1) df

set_option linter.unusedVariables false in
/-- imports.LoadFromSQL.  The ctx argument is carried for signature parity
with the source: the body of LoadFromSQL contains no ctx.Err poll, the
context being forwarded only to the query-execution call of the driver
(whose result is the run field of the statement object). -/
def LoadFromSQL (lib : GoStdlib) (ctx : Ctx) (stmt : Stmt) (options : Option SQLLoadOptions) :
    Outcome :=
  let init : Option SeriesInit :=
    match options with
    | some o => o.knownRowCount.map (fun k => SeriesInit.mk k)
    | none => none
  let database : Int :=
    match options with
    | some o => o.database
    | none => 0
  let dbInvalid : Bool :=
    match options with
    | some o => !(o.database == 0) && !(o.database == 1)
    | none => false
  if dbInvalid then Outcome.err GoError.invalidDatabase
  else
    match execStmt stmt options with
    | none => Outcome.panicked invalidStmtMsg
    | some (Except.error e) => Outcome.err e
    | some (Except.ok cur) =>
      if cur.cols.length ≤ 0 then Outcome.err GoError.noSeriesFound
      else
        let dict : List (String × Dictate) :=
          match options with
          | some o => o.dictateDataType
          | none => []
        let hasOpts := options.isSome
        let seriess := cur.cols.map (fun c => sqlSeriesFor dict hasOpts init c.name c.typ)
        match sqlRowLoop lib database dict hasOpts init cur.cols cur.rows 0 (DataFrame.mk seriess) with
        | Except.error e => Outcome.err e
        | Except.ok dfLoop =>
          match cur.finalErr with
          | some e => Outcome.err e
          | none =>
            -- sql.go line 345: the nil check on the df variable; df was
            -- assigned before the row loop (line 200), so the variable is
            -- some dfLoop here and the ErrNoRows branch cannot be taken.
            let dfOpt : Option DataFrame := some dfLoop
            match dfOpt with
            | none => Outcome.err GoError.errNoRows
            | some df =>
              let df :=
                match init with
                | none => df
                | some i => removeLastN (Int.toNat (i.size - (dfNRows df : Int))) df
              Outcome.ok df

-- helper observations on outcomes, shared by several claims

/-- Column names of a successful outcome. -/
def outcomeNames : Outcome → Option (List String)
  | Outcome.ok df => some (dfNames df)
  | _ => none

/-- Row count of a successful outcome. -/
def outcomeNRows : Outcome → Option Nat
  | Outcome.ok df => some (dfNRows df)
  | _ => none

/-- A parsing-oracle instance for concrete evaluations: both stdlib parsers
reject every input. -/
def trivialLib : GoStdlib :=
  GoStdlib.mk (fun _ => none) (fun _ _ => none)

/-- Whether an outcome is a returned error value. -/
def isErr : Outcome → Bool
  | Outcome.err _ => true
  | _ => false

/-- Whether a storage kind is Generic storage. -/
def isGenericKind : SeriesKind → Bool
  | SeriesKind.generic _ => true
  | _ => false

-- structured-record (JSON Lines) path

/-- A scalar of one decoded record: a string, a numeric literal carried by its
lexical form (the decoder runs with UseNumber, so numbers arrive as
json.Number literals), a boolean, or a JSON null. -/
inductive JValue where
  | str (s : String)
  | num (lit : String)
  | bool (b : Bool)
  | null
deriving DecidableEq

/-- One decoded record, as field-value pairs in their lexical order.  Records
are modelled flat (no nested objects). -/
def JRecord := List (String × JValue)

/-- Modelled from the spec: parseObject, the record-flattening helper called
by LoadFromJSON, is repository code not included under src.  Per the spec,
flattening maps a record to field-value pairs and later duplicate fields
silently overwrite earlier ones within the same row; on the flat records of
this embedding that is exactly the duplicate-collapsing map build below. -/
def parseObject (r : JRecord) : List (String × JValue) :=
  r.foldl (fun acc kv => upsert acc kv.1 kv.2) []

/-- imports.JSONLoadOptions. -/
structure JSONLoadOptions where
  largeDataSet : Bool
  dictateDataType : List (String × Dictate)
  errorOnUnknownFields : Bool

/-- Whether unknown fields after the first row are fatal (jsonl.go line 216). -/
def optErrorOnUnknown (options : Option JSONLoadOptions) : Bool :=
  match options with
  | some o => o.errorOnUnknownFields
  | none => false

/-- Storage kind selected for a dictated type in jsonl.go (lines 122-142); the
default arm keys the generic series by the dictated value itself. -/
def dictSeriesKindJSON (d : Dictate) : SeriesKind :=
  match d with
  | Dictate.float64 => SeriesKind.float64
  | Dictate.int64 => SeriesKind.int64
  | Dictate.bool => SeriesKind.int64
  | Dictate.string => SeriesKind.string
  | Dictate.time => SeriesKind.time
  | Dictate.newSerieser => SeriesKind.custom
  | Dictate.conv c =>
    match c.concreteType with
    | ConcreteTy.time => SeriesKind.time
    | ct => SeriesKind.generic ct
  | Dictate.other label => SeriesKind.generic (ConcreteTy.otherTag label)

/-- Schema resolution for one first-row field of the record path (jsonl.go
lines 111-147): a dictated type if one exists, String otherwise. -/
def jsonSeriesFor (options : Option JSONLoadOptions) (init : Option SeriesInit)
    (name : String) : Series :=
  match options with
  | some o =>
    if !o.dictateDataType.isEmpty then
      match dictLookup o.dictateDataType name with
      | none => mkSeries name SeriesKind.string init
      | some d => mkSeries name (dictSeriesKindJSON d) init
    else mkSeries name SeriesKind.string init
  | none => mkSeries name SeriesKind.string init

/-- The no-override storage of the record path (jsonl.go lines 185-196 and
250-261): strings verbatim, numeric literals by their lexical form, booleans
normalized to the strings 1 and 0, and null stored by omission. -/
def jsonStoreNoDictate (v : JValue) : Option GoValue :=
  match v with
  | JValue.str s => some (GoValue.str s)
  | JValue.num lit => some (GoValue.str lit)
  | JValue.bool b => some (GoValue.str (if b then "1" else "0"))
  | JValue.null => none

/-- The raw lexical form of a record scalar, as handed to coercions. -/
def lexicalForm : JValue → String
  | JValue.str s => s
  | JValue.num lit => lit
  | JValue.bool b => if b then "true" else "false"
  | JValue.null => ""

/-- Modelled from the spec: dictateForce, the dictated-type coercion helper of
the record path, is repository code not included under src.  Per the spec
coercion rules: a null runs no coercion function; Float64 and Int64 parse the
lexical form; String stores it verbatim; Time tries the layout and falls back
to a Unix-seconds integer; a boolean sentinel coerces the boolean-like tokens;
Generic and Custom invoke the attached converter with the raw lexical form,
wrapping its error. -/
def dictateForce (lib : GoStdlib) (row : Nat) (name : String) (d : Dictate) (v : JValue) :
    Except GoError (Option GoValue) :=
  match v with
  | JValue.null => Except.ok none
  | _ =>
    let raw := lexicalForm v
    match d with
    | Dictate.float64 =>
      match lib.parseFloat raw with
      | some f => Except.ok (some (GoValue.float f))
      | none => Except.error (GoError.cantForce raw CoerceTarget.float64 row name)
    | Dictate.int64 =>
      match parseInt64? raw with
      | some n => Except.ok (some (GoValue.int n))
      | none => Except.error (GoError.cantForce raw CoerceTarget.int row name)
    | Dictate.string => Except.ok (some (GoValue.str raw))
    | Dictate.bool =>
      match boolCoerce raw row name with
      | Except.ok gv => Except.ok (some gv)
      | Except.error e => Except.error e
    | Dictate.time =>
      match lib.timeParse rfc3339Layout raw with
      | some t => Except.ok (some (GoValue.time t))
      | none =>
        match parseInt64? raw with
        | some sec => Except.ok (some (GoValue.time sec))
        | none => Except.error (GoError.cantForce raw (CoerceTarget.time rfc3339Layout) row name)
    | Dictate.newSerieser => Except.ok (some (GoValue.str raw))
    | Dictate.conv c =>
      match c.converterFunc raw with
      | Except.ok cv => Except.ok (some cv)
      | Except.error _ => Except.error (GoError.cantForce raw CoerceTarget.generic row name)
    | Dictate.other _ => Except.ok (some (GoValue.str raw))

/-- Storage of one record field (jsonl.go lines 155-197 and 222-262): the
dictated coercion when the field has an override, the no-override string
normalization otherwise.  idx is the 0-based row; the dictated helper is
handed the 1-based row counter exactly as the source passes it. -/
def jsonFieldValue (lib : GoStdlib) (options : Option JSONLoadOptions) (idx : Nat)
    (name : String) (v : JValue) : Except GoError (Option GoValue) :=
  match options with
  | some o =>
    if !o.dictateDataType.isEmpty then
      match dictLookup o.dictateDataType name with
      | none => Except.ok (jsonStoreNoDictate v)
      | some d => dictateForce lib (idx + 1) name d v
    else Except.ok (jsonStoreNoDictate v)
  | none => Except.ok (jsonStoreNoDictate v)

/-- Build the insert-values map of one record (jsonl.go lines 153-199 for the
first row, 208-263 for later rows): on a later row an unknown field is fatal
in strict mode and skipped otherwise; a null stores nothing. -/
def jsonInsertVals (lib : GoStdlib) (options : Option JSONLoadOptions)
    (known : Option (List String)) (idx : Nat) :
    List (String × JValue) → List (String × GoValue) →
    Except GoError (List (String × GoValue))
  | [], acc => Except.ok acc
  | (name, v) :: rest, acc =>
    match known with
    | some ks =>
      if !ks.contains name then
        if optErrorOnUnknown options then Except.error (GoError.unknownField idx name)
        else jsonInsertVals lib options known idx rest acc
      else
        match jsonFieldValue lib options idx name v with
        | Except.error e => Except.error e
        | Except.ok none => jsonInsertVals lib options known idx rest acc
        | Except.ok (some gv) => jsonInsertVals lib options known idx rest (upsert acc name gv)
    | none =>
      match jsonFieldValue lib options idx name v with
      | Except.error e => Except.error e
      | Except.ok none => jsonInsertVals lib options known idx rest acc
      | Except.ok (some gv) => jsonInsertVals lib options known idx rest (upsert acc name gv)

/-- One token of the pre-pass scan: an object-opening delimiter, an
object-closing delimiter, or any scalar token (a key or a value). -/
inductive JToken where
  | openB
  | closeB
  | scalar
deriving DecidableEq

/-- The token stream of one flat record as the decoder yields it: an opening
delimiter, a key token and a value token per field, a closing delimiter. -/
def recordTokens (r : JRecord) : List JToken :=
  JToken.openB :: (r.foldr (fun _ acc => JToken.scalar :: JToken.scalar :: acc) [JToken.closeB])

/-- The token stream of the whole input. -/
def tokensOf (rs : List JRecord) : List JToken :=
  rs.foldr (fun r acc => recordTokens r ++ acc) []

/-- The sizing pre-pass of LoadFromJSON (lines 49-75): before each token a
cancellation poll; balanced object boundaries are counted and each return of
the balance to zero counts one record.  Returns the record count and the
number of polls consumed (the end-of-input probe also polls first). -/
def prePassLoop (ctx : Ctx) : List JToken → Int → Int → Nat → Except GoError (Int × Nat)
  | [], _, size, poll =>
    if ctxErr ctx poll then Except.error GoError.ctxCanceled else Except.ok (size, poll + 1)
  | t :: ts, balance, size, poll =>
    if ctxErr ctx poll then Except.error GoError.ctxCanceled
    else
      match t with
      | JToken.openB => prePassLoop ctx ts (balance + 1) size (poll + 1)
      | JToken.closeB =>
        let balance := balance - 1
        prePassLoop ctx ts balance (if balance = 0 then size + 1 else size) (poll + 1)
      | JToken.scalar => prePassLoop ctx ts balance size (poll + 1)

/-- The decode loop of LoadFromJSON (lines 86-271): before each decode a
cancellation poll; the first decoded record fixes the known fields and the
series; every record is flattened, coerced and written append-then-update
(or in place when preallocated). -/
def jsonRowLoop (lib : GoStdlib) (ctx : Ctx) (options : Option JSONLoadOptions)
    (init : Option SeriesInit) :
    List JRecord → Nat → Nat → Option (List String × DataFrame) →
    Except GoError (Option DataFrame)
  | [], _, poll, st =>
    if ctxErr ctx poll then Except.error GoError.ctxCanceled else Except.ok (st.map Prod.snd)
  | r :: rs, idx, poll, st =>
    if ctxErr ctx poll then Except.error GoError.ctxCanceled
    else
      let vals := parseObject r
      match st with
      | none =>
        let seriess := vals.map (fun kv => jsonSeriesFor options init kv.1)
        let df := DataFrame.mk seriess
        match jsonInsertVals lib options none idx vals [] with
        | Except.error e => Except.error e
        | Except.ok ins =>
          let df := if init.isNone then dfAppendNil df else df
          let df := dfUpdateRow df idx ins
          jsonRowLoop lib ctx options init rs (idx + 1) (poll + 1)
            (some (vals.map Prod.fst, df))
      | some (ks, df) =>
        match jsonInsertVals lib options (some ks) idx vals [] with
        | Except.error e => Except.error e
        | Except.ok ins =>
          let df := if init.isNone then dfAppendNil df else df
          let df := dfUpdateRow df idx ins
          jsonRowLoop lib ctx options init rs (idx + 1) (poll + 1) (some (ks, df))

/-- Ascending comparison of character lists by code point, the byte-wise
string order of sort.Strings (UTF-8 preserves code-point order). -/
def listCharLe : List Char → List Char → Bool
  | [], _ => true
  | _ :: _, [] => false
  | a :: as, b :: bs =>
    if a.toNat < b.toNat then true
    else if b.toNat < a.toNat then false
    else listCharLe as bs

/-- String order used by the final column sort. -/
def strLeB (a b : String) : Bool :=
  listCharLe a.toList b.toList

/-- Insertion into a sorted list of strings. -/
def insertSorted (s : String) : List String → List String
  | [] => [s]
  | t :: ts => if strLeB s t then s :: t :: ts else t :: insertSorted s ts

/-- sort.Strings, as an insertion sort over the byte-wise order. -/
def sortStrings : List String → List String
  | [] => []
  | a :: t => insertSorted a (sortStrings t)

/-- Adjacent-pairs sortedness of a list of strings. -/
def sortedB : List String → Bool
  | [] => true
  | [_] => true
  | a :: b :: rest => strLeB a b && sortedB (b :: rest)

/-- imports.LoadFromJSON: optional sizing pre-pass, the decode loop, the
zero-rows check, and the final reorder of the columns into ascending
lexicographic name order (jsonl.go lines 277-280). -/
def LoadFromJSON (lib : GoStdlib) (ctx : Ctx) (records : List JRecord)
    (options : Option JSONLoadOptions) : Outcome :=
  let pre : Except GoError (Option SeriesInit × Nat) :=
    match options with
    | some o =>
      if o.largeDataSet then
        match prePassLoop ctx (tokensOf records) 0 0 0 with
        | Except.error e => Except.error e
        | Except.ok (size, polls) => Except.ok (some (SeriesInit.mk size), polls)
      else Except.ok (none, 0)
    | none => Except.ok (none, 0)
  match pre with
  | Except.error e => Outcome.err e
  | Except.ok (init, poll0) =>
    match jsonRowLoop lib ctx options init records 0 poll0 none with
    | Except.error e => Outcome.err e
    | Except.ok none => Outcome.err GoError.errNoRows
    | Except.ok (some df) => Outcome.ok (dfReorder df (sortStrings (dfNames df)))

-- row-reversal utility (src/unnamed/part_000)

/-- Modelled from the spec: dataframe.Range, consumed by the reversal utility,
is repository code not included under src.  A range is represented by its
resolution on a table of n rows: Limits yields the inclusive start and end
positions or an error. -/
structure GoRange where
  limits : Nat → Except GoError (Nat × Nat)

/-- The zero Range resolves to the full table. -/
def defaultRange : GoRange :=
  GoRange.mk (fun n =>
    if n = 0 then Except.error (GoError.other "range invalid")
    else Except.ok (0, n - 1))

/-- Range.NRows, derived from Limits as end minus start plus one (zero when
resolution fails; the reversal utility ignores that error). -/
def rangeNRows (r : GoRange) (n : Nat) : Nat :=
  match r.limits n with
  | Except.ok (s, e) => e + 1 - s
  | Except.error _ => 0

/-- utils.ReverseOptions. -/
structure ReverseOptions where
  r : Option GoRange
  dontLock : Bool

/-- Element exchange at two positions of a row list (the Swap of the table). -/
def listSwapAt {α : Type} (l : List α) (i j : Nat) : List α :=
  match l[i]?, l[j]? with
  | some a, some b => (l.set i b).set j a
  | _, _ => l

/-- The swap loop of Reverse (part_000 lines 60-66), run with counter k so
that the loop variable i takes the values k-1 down to 0; each iteration
polls cancellation, swaps positions i+start and (rRows-1-i)+start, and the
performed swaps are returned as a trace alongside the final rows. -/
def reverseLoop {α : Type} (ctx : Ctx) (start rRows : Nat) :
    Nat → Nat → List α → List (Nat × Nat) → Except GoError (List α × List (Nat × Nat))
  | 0, _, l, tr => Except.ok (l, tr)
  | k + 1, poll, l, tr =>
    if ctxErr ctx poll then Except.error GoError.ctxCanceled
    else
      let i := k
      let opp := rRows - 1 - i
      reverseLoop ctx start rRows k (poll + 1)
        (listSwapAt l (i + start) (opp + start)) (tr ++ [(i + start, opp + start)])

/-- utils.Reverse over the common table interface, the table being its row
list: normalize the options, return at zero rows, resolve the range, return
when it covers at most one row, else run the swap loop.  The swap trace is
returned alongside the final rows. -/
def Reverse {α : Type} (ctx : Ctx) (rows : List α) (opts : Option ReverseOptions) :
    Except GoError (List α × List (Nat × Nat)) :=
  let rng : GoRange :=
    match opts with
    | none => defaultRange
    | some o =>
      match o.r with
      | none => defaultRange
      | some r => r
  let nRows := rows.length
  if nRows = 0 then Except.ok (rows, [])
  else
    match rng.limits nRows with
    | Except.error e => Except.error e
    | Except.ok (start, _) =>
      let rRows := rangeNRows rng nRows
      if rRows = 1 ∨ rRows = 0 then Except.ok (rows, [])
      else reverseLoop ctx start rRows (rRows / 2) 0 rows []

/-- The swap positions the reversal loop performs for a resolved range of r
rows starting at position s, in the order performed (i descending from
r/2 - 1 to 0). -/
def swapTrace (s r : Nat) : List (Nat × Nat) :=
  ((List.range (r / 2)).map (fun i => (i + s, (r - 1 - i) + s))).reverse

-- concrete inputs used by witnesses and counterexamples

/-- A one-column query result with zero data rows. -/
def demoCursorZeroRows : Cursor := Cursor.mk [SQLColumn.mk "a" "VARCHAR"] [] none

/-- A one-column query result with two data rows. -/
def demoCursorTwoRows : Cursor :=
  Cursor.mk [SQLColumn.mk "a" "VARCHAR"] [[some "x"], [some "y"]] none

/-- A one-column query result with a single data row. -/
def demoCursorOneRow : Cursor := Cursor.mk [SQLColumn.mk "a" "VARCHAR"] [[some "x"]] none

/-- An INT-typed column fed the token true. -/
def demoCursorIntTrue : Cursor := Cursor.mk [SQLColumn.mk "n" "INT"] [[some "true"]] none

/-- A custom converter whose declared concrete type is time.Time. -/
def demoConvTime : Converter :=
  Converter.mk ConcreteTy.time (fun s => Except.ok (GoValue.obj s))

/-- An override map attaching demoConvTime to field a. -/
def demoDictConvTime : List (String × Dictate) := [("a", Dictate.conv demoConvTime)]

/-- A custom converter with a non-temporal concrete type. -/
def demoConvPlain : Converter :=
  Converter.mk (ConcreteTy.otherTag "S") (fun s => Except.ok (GoValue.obj s))

/-- An override map attaching demoConvPlain to field a. -/
def demoDictConvPlain : List (String × Dictate) := [("a", Dictate.conv demoConvPlain)]

/-- Record-path options selecting strict unknown-field mode only. -/
def strictOnlyOptions : JSONLoadOptions := JSONLoadOptions.mk false [] true

/-- Record-path options selecting the sizing pre-pass only. -/
def largeSetOptions : JSONLoadOptions := JSONLoadOptions.mk true [] false

/-- First demo record: fields b then a. -/
def demoRecB : JRecord := [("b", JValue.str "x"), ("a", JValue.num "1")]

/-- Later demo records: a known field and an unknown field c. -/
def demoRecRest : List JRecord := [[("a", JValue.num "2"), ("c", JValue.str "extra")]]

/-- The position of the first unknown field of a flattened record, by the
known-fields list of the first row. -/
def firstUnknownIn (ks : List String) (r : JRecord) : Option String :=
  ((parseObject r).find? (fun kv => !ks.contains kv.1)).map Prod.fst

/-- The first record index (0-based, counted from idx) and field name at
which a record after the first carries an unknown field. -/
def firstUnknown (ks : List String) : List JRecord → Nat → Option (Nat × String)
  | [], _ => none
  | r :: rs, idx =>
    match firstUnknownIn ks r with
    | some nm => some (idx, nm)
    | none => firstUnknown ks rs (idx + 1)

-- helper lemmas shared by the claim theorems

theorem map_name_preserved (f : Series → Series) (h : ∀ s, (f s).name = s.name) :
    ∀ l : List Series, (l.map f).map Series.name = l.map Series.name := by
  intro l
  induction l with
  | nil => rfl
  | cons a t ih => simp [h, ih]

theorem dfNames_appendNil (df : DataFrame) : dfNames (dfAppendNil df) = dfNames df := by
  simp only [dfNames, dfAppendNil]
  exact map_name_preserved
    (fun s => Series.mk s.name s.kind (s.values ++ [GoValue.nil])) (fun s => rfl) df.series

theorem dfNames_updateRow (df : DataFrame) (idx : Nat) (vals : List (String × GoValue)) :
    dfNames (dfUpdateRow df idx vals) = dfNames df := by
  simpa [dfNames, dfUpdateRow] using
    map_name_preserved _ (fun s => by cases h : rowLookup vals s.name <;> rfl) df.series

theorem find_name_mem : ∀ (l : List Series) (n : String), n ∈ l.map Series.name →
    ∃ s, l.find? (fun s => s.name == n) = some s ∧ s.name = n := by
  intro l
  induction l with
  | nil => intro n h; simp at h
  | cons a t ih =>
    intro n h
    by_cases hn : a.name = n
    · exact ⟨a, by simp [List.find?, hn], hn⟩
    · have hm : n ∈ t.map Series.name := by
        rcases List.mem_cons.mp h with h1 | h1
        · exact absurd h1.symm hn
        · exact h1
      obtain ⟨s, hf, hs⟩ := ih n hm
      refine ⟨s, ?_, hs⟩
      have hb : (a.name == n) = false := by simp [hn]
      simp [List.find?, hb, hf]

theorem dfNames_reorder (df : DataFrame) : ∀ ns : List String,
    (∀ n ∈ ns, n ∈ dfNames df) → dfNames (dfReorder df ns) = ns := by
  intro ns
  induction ns with
  | nil => intro _; simp [dfReorder, dfNames]
  | cons n t ih =>
    intro h
    obtain ⟨s, hf, hs⟩ := find_name_mem df.series n (h n (List.mem_cons_self n t))
    have ht := ih (fun m hm => h m (List.mem_cons_of_mem _ hm))
    simp only [dfReorder, dfNames, List.filterMap_cons, hf] at *
    simp [hf, hs, ht]

theorem listCharLe_total : ∀ as bs : List Char,
    listCharLe as bs = true ∨ listCharLe bs as = true := by
  intro as
  induction as with
  | nil => intro bs; left; rfl
  | cons a as ih =>
    intro bs
    cases bs with
    | nil => right; rfl
    | cons b bs =>
      rcases Nat.lt_trichotomy a.toNat b.toNat with h | h | h
      · left; simp [listCharLe, h]
      · have h1 : ¬ a.toNat < b.toNat := by omega
        have h2 : ¬ b.toNat < a.toNat := by omega
        simpa [listCharLe, h1, h2] using ih bs
      · right; simp [listCharLe, h]

theorem strLeB_total (a b : String) : strLeB a b = true ∨ strLeB b a = true :=
  listCharLe_total a.toList b.toList

theorem mem_insertSorted (x s : String) : ∀ l, x ∈ insertSorted s l → x = s ∨ x ∈ l := by
  intro l
  induction l with
  | nil => simp [insertSorted]
  | cons t ts ih =>
    simp only [insertSorted]
    by_cases h : strLeB s t = true
    · simp only [h, if_true]
      intro hx
      rcases List.mem_cons.mp hx with h1 | h1
      · exact Or.inl h1
      · exact Or.inr h1
    · simp only [h, if_false]
      intro hx
      rcases List.mem_cons.mp hx with h1 | h1
      · exact Or.inr (h1 ▸ List.mem_cons_self t ts)
      · rcases ih h1 with h2 | h2
        · exact Or.inl h2
        · exact Or.inr (List.mem_cons_of_mem _ h2)

theorem mem_sortStrings (x : String) : ∀ l, x ∈ sortStrings l → x ∈ l := by
  intro l
  induction l with
  | nil => simp [sortStrings]
  | cons a t ih =>
    intro hx
    rcases mem_insertSorted x a (sortStrings t) hx with h | h
    · exact h ▸ List.mem_cons_self a t
    · exact List.mem_cons_of_mem _ (ih h)

theorem sortedB_insertSorted (s : String) : ∀ l,
    (sortedB l = true → sortedB (insertSorted s l) = true) ∧
    (∀ a, strLeB a s = true → sortedB (a :: l) = true →
      sortedB (a :: insertSorted s l) = true) := by
  intro l
  induction l with
  | nil =>
    refine ⟨fun _ => rfl, fun a ha _ => ?_⟩
    simp [insertSorted, sortedB, ha]
  | cons b t ih =>
    constructor
    · intro hbt
      simp only [insertSorted]
      by_cases h : strLeB s b = true
      · simp only [h, if_true]
        simpa [sortedB, h] using hbt
      · simp only [h, if_false]
        have hbs : strLeB b s = true := (strLeB_total s b).resolve_left h
        have hbt2 : sortedB t = true := by
          cases t with
          | nil => rfl
          | cons c u => exact (Bool.and_elim_right (by simpa [sortedB] using hbt))
        exact ih.2 b hbs hbt
    · intro a ha hab
      simp only [insertSorted]
      by_cases h : strLeB s b = true
      · simp only [h, if_true]
        have h1 : strLeB a b = true := Bool.and_elim_left (by simpa [sortedB] using hab)
        have h2 : sortedB (b :: t) = true := Bool.and_elim_right (by simpa [sortedB] using hab)
        simp [sortedB, ha, h, h2]
      · simp only [h, if_false]
        have h1 : strLeB a b = true := Bool.and_elim_left (by simpa [sortedB] using hab)
        have h2 : sortedB (b :: t) = true := Bool.and_elim_right (by simpa [sortedB] using hab)
        have hbs : strLeB b s = true := (strLeB_total s b).resolve_left h
        have h3 : sortedB (b :: insertSorted s t) = true := ih.2 b hbs h2
        cases hins : insertSorted s t with
        | nil => simp [sortedB, h1]
        | cons c u =>
          have h4 : strLeB b c = true := by
            have := h3
            rw [hins] at this
            exact Bool.and_elim_left (by simpa [sortedB] using this)
          have h5 : sortedB (c :: u) = true := by
            have := h3
            rw [hins] at this
            exact Bool.and_elim_right (by simpa [sortedB] using this)
          simp [sortedB, h1, h4, h5]

theorem sortedB_sortStrings : ∀ l, sortedB (sortStrings l) = true := by
  intro l
  induction l with
  | nil => rfl
  | cons a t ih => exact (sortedB_insertSorted a (sortStrings t)).1 ih

-- claim theorems

/-- C1: the claim says an ingestion call whose source yields zero data rows
returns NoRowsError on both paths.  The record path does; the query path does
not: with a one-column result and zero rows, LoadFromSQL returns an empty
table with a nil error, because the df variable is assigned before the row
loop and the ErrNoRows guard of sql.go line 345 can never fire.  This theorem
evaluates both paths at the zero-row input. -/
theorem claim_C1_zero_rows_query_path_returns_empty_table :
    LoadFromSQL trivialLib none (Stmt.prepared (Except.ok demoCursorZeroRows)) none
      = Outcome.ok (DataFrame.mk [Series.mk "a" SeriesKind.string []])
  ∧ isErr (LoadFromSQL trivialLib none (Stmt.prepared (Except.ok demoCursorZeroRows)) none)
      = false
  ∧ LoadFromJSON trivialLib none [] none = Outcome.err GoError.errNoRows :=
  ⟨rfl, rfl, rfl⟩

/-- C4: the claim says unused preallocated tail rows are removed so the
returned row count equals the materialized count M.  The code computes the
excess as KnownRowCount minus NRows, but under preallocation NRows already
equals KnownRowCount for the whole call, so the excess is always zero and
nothing is trimmed: with K = 3 and M = 1 the returned table keeps 3 rows. -/
theorem claim_C4_trim_is_noop :
    LoadFromSQL trivialLib none (Stmt.prepared (Except.ok demoCursorOneRow))
      (some (SQLLoadOptions.mk (some 3) [] 0 ""))
      = Outcome.ok (DataFrame.mk [Series.mk "a" SeriesKind.string
          [GoValue.str "x", GoValue.nil, GoValue.nil]])
  ∧ outcomeNRows (LoadFromSQL trivialLib none (Stmt.prepared (Except.ok demoCursorOneRow))
      (some (SQLLoadOptions.mk (some 3) [] 0 ""))) = some 3 :=
  ⟨rfl, rfl⟩

/-- C5 counterexample: a statement exposing neither execution capability does
not make LoadFromSQL return an error value; the call panics. -/
theorem claim_C5_counterexample_panics_not_error :
    LoadFromSQL trivialLib none Stmt.invalid none = Outcome.panicked invalidStmtMsg
  ∧ isErr (LoadFromSQL trivialLib none Stmt.invalid none) = false :=
  ⟨rfl, rfl⟩

/-- C5 amended: for every statement-like object exposing neither supported
query-execution capability, LoadFromSQL fails fatally by panicking with the
invalid-statement message (provided the options carry a valid database
selector, which is checked first), rather than by returning an error value. -/
theorem claim_C5_invalid_stmt_panics :
    ∀ (lib : GoStdlib) (ctx : Ctx) (options : Option SQLLoadOptions),
    (match options with
     | some o => o.database = 0 ∨ o.database = 1
     | none => True) →
    LoadFromSQL lib ctx Stmt.invalid options = Outcome.panicked invalidStmtMsg := by
  intro lib ctx options h
  cases options with
  | none => rfl
  | some o =>
    rcases h with h | h <;> simp [LoadFromSQL, execStmt, h]

/-- C5 witness: the amended theorem applied at the empty options. -/
theorem claim_C5_witness :
    LoadFromSQL trivialLib none Stmt.invalid none = Outcome.panicked invalidStmtMsg :=
  claim_C5_invalid_stmt_panics trivialLib none none trivial

/-- C2 counterexample: with the cancellation signal raised before row 0
begins, the query path still materializes and returns both rows with a nil
error, because LoadFromSQL performs no per-row cancellation poll. -/
theorem claim_C2_counterexample_sql_ignores_cancel :
    LoadFromSQL trivialLib (some 0) (Stmt.prepared (Except.ok demoCursorTwoRows)) none
      = Outcome.ok (DataFrame.mk [Series.mk "a" SeriesKind.string
          [GoValue.str "x", GoValue.str "y"]])
  ∧ isErr (LoadFromSQL trivialLib (some 0)
      (Stmt.prepared (Except.ok demoCursorTwoRows)) none) = false :=
  ⟨rfl, rfl⟩

theorem jsonFieldValue_no_dict (lib : GoStdlib) (idx : Nat) (name : String) (v : JValue) :
    ∀ options, (options = none ∨ ∃ o, options = some o ∧ o.dictateDataType = []) →
    jsonFieldValue lib options idx name v = Except.ok (jsonStoreNoDictate v) := by
  intro options hd
  rcases hd with rfl | ⟨o, rfl, ho⟩
  · rfl
  · simp [jsonFieldValue, ho]

theorem jsonInsertVals_ok (lib : GoStdlib) (options : Option JSONLoadOptions)
    (hd : options = none ∨ ∃ o, options = some o ∧ o.dictateDataType = [])
    (hstrict : optErrorOnUnknown options = false) :
    ∀ (fields : List (String × JValue)) (known : Option (List String)) (idx : Nat)
      (acc : List (String × GoValue)),
    ∃ out, jsonInsertVals lib options known idx fields acc = Except.ok out := by
  intro fields
  induction fields with
  | nil => intro known idx acc; exact ⟨acc, rfl⟩
  | cons kv rest ih =>
    intro known idx acc
    obtain ⟨name, v⟩ := kv
    have hf := jsonFieldValue_no_dict lib idx name v options hd
    cases known with
    | none =>
      cases hsv : jsonStoreNoDictate v with
      | none =>
        obtain ⟨out, hout⟩ := ih none idx acc
        exact ⟨out, by simp [jsonInsertVals, hf, hsv, hout]⟩
      | some gv =>
        obtain ⟨out, hout⟩ := ih none idx (upsert acc name gv)
        exact ⟨out, by simp [jsonInsertVals, hf, hsv, hout]⟩
    | some ks =>
      by_cases hk : name ∈ ks
      · cases hsv : jsonStoreNoDictate v with
        | none =>
          obtain ⟨out, hout⟩ := ih (some ks) idx acc
          exact ⟨out, by simp [jsonInsertVals, hk, hf, hsv, hout]⟩
        | some gv =>
          obtain ⟨out, hout⟩ := ih (some ks) idx (upsert acc name gv)
          exact ⟨out, by simp [jsonInsertVals, hk, hf, hsv, hout]⟩
      · obtain ⟨out, hout⟩ := ih (some ks) idx acc
        exact ⟨out, by simp [jsonInsertVals, hk, hstrict, hout]⟩

theorem jsonRowLoop_cancel (lib : GoStdlib) (i : Nat) :
    ∀ (rs : List JRecord) (idx poll : Nat) (st : Option (List String × DataFrame)),
    i ≤ poll + rs.length →
    jsonRowLoop lib (some i) none none rs idx poll st = Except.error GoError.ctxCanceled := by
  intro rs
  induction rs with
  | nil =>
    intro idx poll st h
    have hc : ctxErr (some i) poll = true := by
      simp only [ctxErr, decide_eq_true_eq]
      simpa using h
    simp [jsonRowLoop, hc]
  | cons r rs ih =>
    intro idx poll st h
    by_cases hp : i ≤ poll
    · have hc : ctxErr (some i) poll = true := by
        simp only [ctxErr, decide_eq_true_eq]
        exact hp
      simp [jsonRowLoop, hc]
    · have hc : ctxErr (some i) poll = false := by
        simp only [ctxErr, decide_eq_false_iff_not]
        exact hp
      cases st with
      | none =>
        obtain ⟨out, hout⟩ :=
          jsonInsertVals_ok lib none (Or.inl rfl) rfl (parseObject r) none idx []
        simp only [jsonRowLoop, hc, Bool.false_eq_true, if_false, hout]
        exact ih (idx + 1) (poll + 1) _ (by simp at h ⊢; omega)
      | some st0 =>
        obtain ⟨ks, df⟩ := st0
        obtain ⟨out, hout⟩ :=
          jsonInsertVals_ok lib none (Or.inl rfl) rfl (parseObject r) (some ks) idx []
        simp only [jsonRowLoop, hc, Bool.false_eq_true, if_false, hout]
        exact ih (idx + 1) (poll + 1) _ (by simp at h ⊢; omega)

theorem prePassLoop_cancel (i : Nat) :
    ∀ (toks : List JToken) (balance size : Int) (poll : Nat),
    i ≤ poll + toks.length →
    prePassLoop (some i) toks balance size poll = Except.error GoError.ctxCanceled := by
  intro toks
  induction toks with
  | nil =>
    intro balance size poll h
    have hc : ctxErr (some i) poll = true := by
      simp only [ctxErr, decide_eq_true_eq]
      simpa using h
    simp [prePassLoop, hc]
  | cons t ts ih =>
    intro balance size poll h
    by_cases hp : i ≤ poll
    · have hc : ctxErr (some i) poll = true := by
        simp only [ctxErr, decide_eq_true_eq]
        exact hp
      simp [prePassLoop, hc]
    · have hc : ctxErr (some i) poll = false := by
        simp only [ctxErr, decide_eq_false_iff_not]
        exact hp
      have hrec : i ≤ (poll + 1) + ts.length := by simp at h; omega
      cases t with
      | openB => simpa [prePassLoop, hc] using ih (balance + 1) size (poll + 1) hrec
      | closeB =>
        have hnext := ih (balance - 1) (if balance - 1 = 0 then size + 1 else size) (poll + 1) hrec
        simpa [prePassLoop, hc] using hnext
      | scalar => simpa [prePassLoop, hc] using ih balance size (poll + 1) hrec

/-- C2 amended: on the structured-record path the cancellation signal is
polled before each row decode and before each pre-pass token; if it is
signaled before row i begins (at most rs.length polls happen before the end
probe), the call returns the cancellation error and no table, so no row at or
after i is committed.  The query path performs no per-row poll (see the
counterexample). -/
theorem claim_C2_record_path_cancellation :
    ∀ (lib : GoStdlib) (rs : List JRecord) (i : Nat),
    (i ≤ rs.length →
      LoadFromJSON lib (some i) rs none = Outcome.err GoError.ctxCanceled)
  ∧ (i ≤ (tokensOf rs).length →
      LoadFromJSON lib (some i) rs (some largeSetOptions) = Outcome.err GoError.ctxCanceled) := by
  intro lib rs i
  constructor
  · intro h
    have hl := jsonRowLoop_cancel lib i rs 0 0 none (by omega)
    simp [LoadFromJSON, hl]
  · intro h
    have hp := prePassLoop_cancel i (tokensOf rs) 0 0 0 (by omega)
    simp [LoadFromJSON, largeSetOptions, hp]

/-- C2 witness: the amended theorem applied with cancellation signaled before
row 1 of a two-record input, on both the plain and the pre-pass path. -/
theorem claim_C2_witness :
    LoadFromJSON trivialLib (some 1) [demoRecB, demoRecB] none
      = Outcome.err GoError.ctxCanceled
  ∧ LoadFromJSON trivialLib (some 1) [demoRecB, demoRecB] (some largeSetOptions)
      = Outcome.err GoError.ctxCanceled :=
  ⟨(claim_C2_record_path_cancellation trivialLib [demoRecB, demoRecB] 1).1 (by decide),
   (claim_C2_record_path_cancellation trivialLib [demoRecB, demoRecB] 1).2 (by decide)⟩

/-- C3 counterexample: an override carrying a custom converter whose declared
concrete type is time.Time selects Time storage on both paths, not Generic
storage, so the storage choice is not independent of the declared concrete
type. -/
theorem claim_C3_counterexample_time_converter_not_generic :
    (sqlSeriesFor demoDictConvTime true none "a" "INT").kind = SeriesKind.time
  ∧ isGenericKind (sqlSeriesFor demoDictConvTime true none "a" "INT").kind = false
  ∧ (jsonSeriesFor (some (JSONLoadOptions.mk false demoDictConvTime false)) none "a").kind
      = SeriesKind.time
  ∧ isGenericKind (jsonSeriesFor (some (JSONLoadOptions.mk false demoDictConvTime false))
      none "a").kind = false :=
  ⟨rfl, rfl, rfl, rfl⟩

/-- C3 amended: a field dictated to a custom converter gets Generic storage
keyed by the declared concrete type unless that type is time.Time, in which
case Time storage is selected; in every case the attached converter function
is invoked for every non-null coercion of the field, its error being wrapped
as a generic coercion error (query path, and record path through the
spec-modelled dictateForce). -/
theorem claim_C3_converter_storage_and_invocation :
    ∀ (lib : GoStdlib) (db : Int) (dict : List (String × Dictate)) (c : Converter)
      (init : Option SeriesInit) (name typ : String) (idx : Nat) (s : String) (v : JValue)
      (o : JSONLoadOptions),
    dictLookup dict name = some (Dictate.conv c) →
    o.dictateDataType = dict →
    ((sqlSeriesFor dict true init name typ).kind
        = match c.concreteType with
          | ConcreteTy.time => SeriesKind.time
          | ct => SeriesKind.generic ct)
  ∧ ((jsonSeriesFor (some o) init name).kind
        = match c.concreteType with
          | ConcreteTy.time => SeriesKind.time
          | ct => SeriesKind.generic ct)
  ∧ (sqlCoerceValue lib db dict true idx typ name (some s)
        = match c.converterFunc s with
          | Except.ok cv => Except.ok cv
          | Except.error _ =>
            Except.error (GoError.cantForce s CoerceTarget.generic idx name))
  ∧ (v ≠ JValue.null →
      dictateForce lib (idx + 1) name (Dictate.conv c) v
        = match c.converterFunc (lexicalForm v) with
          | Except.ok cv => Except.ok (some cv)
          | Except.error _ =>
            Except.error (GoError.cantForce (lexicalForm v) CoerceTarget.generic (idx + 1) name)) := by
  intro lib db dict c init name typ idx s v o hlook ho
  have hne : dict.isEmpty = false := by
    cases dict with
    | nil => simp [dictLookup] at hlook
    | cons kv t => rfl
  obtain ⟨ct, f⟩ := c
  refine ⟨?_, ?_, ?_, ?_⟩
  · simp only [sqlSeriesFor, hne, Bool.not_false, Bool.and_self, if_true, hlook]
    cases ct <;> rfl
  · simp only [jsonSeriesFor, ho, hne, Bool.not_false, if_true, hlook]
    cases ct <;> rfl
  · simp only [sqlCoerceValue, hne, Bool.not_false, Bool.and_self, if_true, hlook,
      sqlDictCoerce]
  · intro hv
    cases v with
    | null => exact absurd rfl hv
    | str s0 => rfl
    | num lit => rfl
    | bool b => rfl

/-- C3 witness: the amended theorem applied to a converter with a non-temporal
concrete type, showing Generic storage and the invocation of the converter. -/
theorem claim_C3_witness :
    (sqlSeriesFor demoDictConvPlain true none "a" "INT").kind
      = SeriesKind.generic (ConcreteTy.otherTag "S")
  ∧ (jsonSeriesFor (some (JSONLoadOptions.mk false demoDictConvPlain false)) none "a").kind
      = SeriesKind.generic (ConcreteTy.otherTag "S")
  ∧ sqlCoerceValue trivialLib 0 demoDictConvPlain true 0 "INT" "a" (some "x")
      = Except.ok (GoValue.obj "x")
  ∧ dictateForce trivialLib 1 "a" (Dictate.conv demoConvPlain) (JValue.str "x")
      = Except.ok (some (GoValue.obj "x")) := by
  have h := claim_C3_converter_storage_and_invocation trivialLib 0 demoDictConvPlain
    demoConvPlain none "a" "INT" 0 "x" (JValue.str "x")
    (JSONLoadOptions.mk false demoDictConvPlain false) rfl rfl
  exact ⟨h.1, h.2.1, h.2.2.1, h.2.2.2 (fun hh => JValue.noConfusion hh)⟩

/-- C6 counterexample: a column whose reported type is INT is a declared-Int64
field of the query path, yet feeding it the boolean-like token true does not
store 1; the call fails with a coercion error targeting Int. -/
theorem claim_C6_counterexample_int_field_rejects_true :
    LoadFromSQL trivialLib none (Stmt.prepared (Except.ok demoCursorIntTrue)) none
      = Outcome.err (GoError.cantForce "true" CoerceTarget.int 0 "n")
  ∧ Outcome.err (GoError.cantForce "true" CoerceTarget.int 0 "n")
      ≠ Outcome.ok (DataFrame.mk [Series.mk "n" SeriesKind.int64 [GoValue.int 1]]) :=
  ⟨rfl, fun h => Outcome.noConfusion h⟩

/-- C6 amended: in the query path the boolean-token coercion (true, TRUE,
True, 1 to int64 1 and false, FALSE, False, 0 to int64 0, any other token a
coercion error targeting bool) applies exactly to fields dictated by the
boolean sentinel or whose reported column type is BOOL; a field declared
Int64 through the integer sentinel or an integer-family column type parses
its token strictly as a 64-bit signed integer, any other token (including
the boolean words) yielding a coercion error targeting Int. -/
theorem claim_C6_boolean_tokens_only_for_bool_fields :
    ∀ (lib : GoStdlib) (db : Int) (idx : Nat) (field s t : String),
    (t ∈ intFamily →
      sqlColTypeCoerce lib db idx t field s
        = match parseInt64? s with
          | some n => Except.ok (GoValue.int n)
          | none => Except.error (GoError.cantForce s CoerceTarget.int idx field))
  ∧ (sqlColTypeCoerce lib db idx "BOOL" field s = boolCoerce s idx field)
  ∧ (sqlDictCoerce lib db idx field Dictate.int64 s
      = match parseInt64? s with
        | some n => Except.ok (GoValue.int n)
        | none => Except.error (GoError.cantForce s CoerceTarget.int idx field))
  ∧ (sqlDictCoerce lib db idx field Dictate.bool s = boolCoerce s idx field)
  ∧ ((s = "true" ∨ s = "TRUE" ∨ s = "True" ∨ s = "1") →
      boolCoerce s idx field = Except.ok (GoValue.int 1))
  ∧ ((s = "false" ∨ s = "FALSE" ∨ s = "False" ∨ s = "0") →
      boolCoerce s idx field = Except.ok (GoValue.int 0))
  ∧ (¬ (s = "true" ∨ s = "TRUE" ∨ s = "True" ∨ s = "1") →
      ¬ (s = "false" ∨ s = "FALSE" ∨ s = "False" ∨ s = "0") →
      boolCoerce s idx field
        = Except.error (GoError.cantForce s CoerceTarget.bool idx field)) := by
  intro lib db idx field s t
  refine ⟨?_, rfl, rfl, rfl, ?_, ?_, ?_⟩
  · intro ht
    fin_cases ht <;> rfl
  · intro h
    simp [boolCoerce, h]
  · intro h
    have h1 : ¬ (s = "true" ∨ s = "TRUE" ∨ s = "True" ∨ s = "1") := by
      rcases h with rfl | rfl | rfl | rfl <;> simp
    simp [boolCoerce, h1, h]
  · intro h1 h2
    simp [boolCoerce, h1, h2]

/-- C6 witness: the amended theorem applied to an INT column fed 12 (strict
integer parse) and to a BOOL column fed True (boolean-token coercion). -/
theorem claim_C6_witness :
    sqlColTypeCoerce trivialLib 0 0 "INT" "n" "12" = Except.ok (GoValue.int 12)
  ∧ sqlColTypeCoerce trivialLib 0 0 "BOOL" "n" "True" = Except.ok (GoValue.int 1) := by
  constructor
  · exact (claim_C6_boolean_tokens_only_for_bool_fields trivialLib 0 0 "n" "12" "INT").1
      (by decide)
  · have h := claim_C6_boolean_tokens_only_for_bool_fields trivialLib 0 0 "n" "True" "BOOL"
    exact h.2.1.trans (h.2.2.2.2.1 (by tauto))

/-- C8: in the record path a field without an override stores a boolean true
as the string 1 and false as the string 0, and a numeric literal is stored as
its decimal lexical form as a string (never re-parsed into a native numeric
value); this holds both with no options and with an override map that lacks
the field. -/
theorem claim_C8_no_override_lexical_storage :
    ∀ (lib : GoStdlib) (idx : Nat) (name lit s : String) (b : Bool) (o : JSONLoadOptions),
    (jsonStoreNoDictate (JValue.bool true) = some (GoValue.str "1")
      ∧ jsonStoreNoDictate (JValue.bool false) = some (GoValue.str "0")
      ∧ jsonStoreNoDictate (JValue.num lit) = some (GoValue.str lit)
      ∧ jsonStoreNoDictate (JValue.str s) = some (GoValue.str s)
      ∧ jsonFieldValue lib none idx name (JValue.num lit)
          = Except.ok (some (GoValue.str lit))
      ∧ jsonFieldValue lib none idx name (JValue.bool b)
          = Except.ok (some (GoValue.str (if b then "1" else "0"))))
  ∧ (dictLookup o.dictateDataType name = none →
      jsonFieldValue lib (some o) idx name (JValue.num lit)
          = Except.ok (some (GoValue.str lit))
      ∧ jsonFieldValue lib (some o) idx name (JValue.bool b)
          = Except.ok (some (GoValue.str (if b then "1" else "0")))) := by
  intro lib idx name lit s b o
  refine ⟨⟨rfl, rfl, rfl, rfl, rfl, rfl⟩, ?_⟩
  intro hl
  by_cases hemp : o.dictateDataType.isEmpty = true
  · constructor <;> simp [jsonFieldValue, hemp, jsonStoreNoDictate]
  · have hemp2 : o.dictateDataType.isEmpty = false := by
      cases h : o.dictateDataType.isEmpty with
      | true => exact absurd h hemp
      | false => rfl
    constructor <;> simp [jsonFieldValue, hemp2, hl, jsonStoreNoDictate]

/-- C8 witness: the theorem applied to an override map that lacks the field. -/
theorem claim_C8_witness :
    jsonFieldValue trivialLib (some (JSONLoadOptions.mk false [("z", Dictate.int64)] false))
      0 "a" (JValue.num "1e3") = Except.ok (some (GoValue.str "1e3"))
  ∧ jsonFieldValue trivialLib (some (JSONLoadOptions.mk false [("z", Dictate.int64)] false))
      0 "a" (JValue.bool true) = Except.ok (some (GoValue.str "1")) := by
  have h := (claim_C8_no_override_lexical_storage trivialLib 0 "a" "1e3" "" true
    (JSONLoadOptions.mk false [("z", Dictate.int64)] false)).2 rfl
  exact ⟨h.1, h.2⟩

/-- C9: every successful record-path call returns a table whose column names
are in ascending lexicographic order, because the final step reorders the
columns by the sorted name list. -/
theorem claim_C9_columns_sorted :
    ∀ (lib : GoStdlib) (ctx : Ctx) (records : List JRecord)
      (options : Option JSONLoadOptions) (df : DataFrame),
    LoadFromJSON lib ctx records options = Outcome.ok df →
    sortedB (dfNames df) = true := by
  intro lib ctx records options df h
  simp only [LoadFromJSON] at h
  split at h
  · exact Outcome.noConfusion h
  · split at h
    · exact Outcome.noConfusion h
    · exact Outcome.noConfusion h
    · rename_i df0 heq
      have hdf : df = dfReorder df0 (sortStrings (dfNames df0)) :=
        (Outcome.ok.injEq _ _ ▸ h).symm
      rw [hdf, dfNames_reorder df0 (sortStrings (dfNames df0))
        (fun n hn => mem_sortStrings n (dfNames df0) hn)]
      exact sortedB_sortStrings (dfNames df0)

/-- C9 witness: the theorem applied to a concrete two-field record whose
fields arrive in descending name order. -/
theorem claim_C9_witness :
    sortedB (dfNames (DataFrame.mk [Series.mk "a" SeriesKind.string [GoValue.str "1"],
      Series.mk "b" SeriesKind.string [GoValue.str "x"]])) = true :=
  claim_C9_columns_sorted trivialLib none [demoRecB] none
    (DataFrame.mk [Series.mk "a" SeriesKind.string [GoValue.str "1"],
      Series.mk "b" SeriesKind.string [GoValue.str "x"]]) rfl

theorem jsonSeriesFor_name (options : Option JSONLoadOptions) (init : Option SeriesInit)
    (n : String) : (jsonSeriesFor options init n).name = n := by
  cases options with
  | none => rfl
  | some o =>
    by_cases hemp : o.dictateDataType.isEmpty = true
    · simp [jsonSeriesFor, hemp, mkSeries]
    · have hemp2 : o.dictateDataType.isEmpty = false := by
        cases h : o.dictateDataType.isEmpty with
        | true => exact absurd h hemp
        | false => rfl
      cases hl : dictLookup o.dictateDataType n <;>
        simp [jsonSeriesFor, hemp2, hl, mkSeries]

theorem names_of_created (options : Option JSONLoadOptions) (init : Option SeriesInit) :
    ∀ vals : List (String × JValue),
    dfNames (DataFrame.mk (vals.map (fun kv => jsonSeriesFor options init kv.1)))
      = vals.map Prod.fst := by
  intro vals
  induction vals with
  | nil => rfl
  | cons kv rest ih =>
    simp only [dfNames, List.map_cons, jsonSeriesFor_name] at *
    rw [ih]

theorem jsonRowLoop_ok_names (lib : GoStdlib) (options : Option JSONLoadOptions)
    (hd : options = none ∨ ∃ o, options = some o ∧ o.dictateDataType = [])
    (hstrict : optErrorOnUnknown options = false) :
    ∀ (rs : List JRecord) (idx poll : Nat) (ks : List String) (df : DataFrame),
    ∃ df2, jsonRowLoop lib none options none rs idx poll (some (ks, df)) = Except.ok (some df2)
      ∧ dfNames df2 = dfNames df := by
  intro rs
  induction rs with
  | nil => intro idx poll ks df; exact ⟨df, rfl, rfl⟩
  | cons r rs ih =>
    intro idx poll ks df
    obtain ⟨out, hout⟩ :=
      jsonInsertVals_ok lib options hd hstrict (parseObject r) (some ks) idx []
    obtain ⟨df2, hloop, hnames⟩ := ih (idx + 1) (poll + 1) ks (dfUpdateRow (dfAppendNil df) idx out)
    refine ⟨df2, ?_, ?_⟩
    · simp [jsonRowLoop, ctxErr, hout, hloop]
    · rw [hnames, dfNames_updateRow, dfNames_appendNil]

theorem jsonInsertVals_none_known_ok (lib : GoStdlib) (options : Option JSONLoadOptions)
    (hd : options = none ∨ ∃ o, options = some o ∧ o.dictateDataType = []) :
    ∀ (fields : List (String × JValue)) (idx : Nat) (acc : List (String × GoValue)),
    ∃ out, jsonInsertVals lib options none idx fields acc = Except.ok out := by
  intro fields
  induction fields with
  | nil => intro idx acc; exact ⟨acc, rfl⟩
  | cons kv rest ih =>
    intro idx acc
    obtain ⟨name, v⟩ := kv
    have hf := jsonFieldValue_no_dict lib idx name v options hd
    cases hsv : jsonStoreNoDictate v with
    | none =>
      obtain ⟨out, hout⟩ := ih idx acc
      exact ⟨out, by simp [jsonInsertVals, hf, hsv, hout]⟩
    | some gv =>
      obtain ⟨out, hout⟩ := ih idx (upsert acc name gv)
      exact ⟨out, by simp [jsonInsertVals, hf, hsv, hout]⟩

theorem jsonInsertVals_first_unknown (lib : GoStdlib) :
    ∀ (fields : List (String × JValue)) (ks : List String) (idx : Nat)
      (acc : List (String × GoValue)) (nm : String),
    (fields.find? (fun kv => !ks.contains kv.1)).map Prod.fst = some nm →
    jsonInsertVals lib (some strictOnlyOptions) (some ks) idx fields acc
      = Except.error (GoError.unknownField idx nm) := by
  intro fields
  induction fields with
  | nil => intro ks idx acc nm h; simp [List.find?] at h
  | cons kv rest ih =>
    intro ks idx acc nm h
    obtain ⟨name, v⟩ := kv
    by_cases hk : name ∈ ks
    · have hpred : (!ks.contains name) = false := by simp [hk]
      rw [List.find?_cons_of_neg _ (by simp [hk])] at h
      have hf : jsonFieldValue lib (some strictOnlyOptions) idx name v
          = Except.ok (jsonStoreNoDictate v) :=
        jsonFieldValue_no_dict lib idx name v _ (Or.inr ⟨strictOnlyOptions, rfl, rfl⟩)
      cases hsv : jsonStoreNoDictate v with
      | none => simpa [jsonInsertVals, hk, hf, hsv] using ih ks idx acc nm h
      | some gv => simpa [jsonInsertVals, hk, hf, hsv] using ih ks idx (upsert acc name gv) nm h
    · rw [List.find?_cons_of_pos _ (by simp [hk])] at h
      simp at h
      subst h
      simp [jsonInsertVals, hk, optErrorOnUnknown, strictOnlyOptions]

theorem jsonInsertVals_all_known_ok (lib : GoStdlib) :
    ∀ (fields : List (String × JValue)) (ks : List String) (idx : Nat)
      (acc : List (String × GoValue)),
    fields.find? (fun kv => !ks.contains kv.1) = none →
    ∃ out, jsonInsertVals lib (some strictOnlyOptions) (some ks) idx fields acc
      = Except.ok out := by
  intro fields
  induction fields with
  | nil => intro ks idx acc _; exact ⟨acc, rfl⟩
  | cons kv rest ih =>
    intro ks idx acc h
    obtain ⟨name, v⟩ := kv
    rw [List.find?_cons] at h
    by_cases hk : name ∈ ks
    · have hpred : (!ks.contains name) = false := by simp [hk]
      rw [hpred] at h
      have hf : jsonFieldValue lib (some strictOnlyOptions) idx name v
          = Except.ok (jsonStoreNoDictate v) :=
        jsonFieldValue_no_dict lib idx name v _ (Or.inr ⟨strictOnlyOptions, rfl, rfl⟩)
      cases hsv : jsonStoreNoDictate v with
      | none =>
        obtain ⟨out, hout⟩ := ih ks idx acc h
        exact ⟨out, by simp [jsonInsertVals, hk, hf, hsv, hout]⟩
      | some gv =>
        obtain ⟨out, hout⟩ := ih ks idx (upsert acc name gv) h
        exact ⟨out, by simp [jsonInsertVals, hk, hf, hsv, hout]⟩
    · have hpred : (!ks.contains name) = true := by simp [hk]
      rw [hpred] at h
      exact absurd h (by simp)

theorem jsonRowLoop_strict_unknown (lib : GoStdlib) :
    ∀ (rs : List JRecord) (idx poll : Nat) (ks : List String) (df : DataFrame)
      (j : Nat) (nm : String),
    firstUnknown ks rs idx = some (j, nm) →
    jsonRowLoop lib none (some strictOnlyOptions) none rs idx poll (some (ks, df))
      = Except.error (GoError.unknownField j nm) := by
  intro rs
  induction rs with
  | nil => intro idx poll ks df j nm h; simp [firstUnknown] at h
  | cons r rs ih =>
    intro idx poll ks df j nm h
    cases hfu : firstUnknownIn ks r with
    | some nm0 =>
      rw [firstUnknown, hfu] at h
      simp only [Option.some.injEq, Prod.mk.injEq] at h
      obtain ⟨hj, hnm⟩ := h
      subst hj
      subst hnm
      have he := jsonInsertVals_first_unknown lib (parseObject r) ks idx [] nm0
        (by simpa [firstUnknownIn] using hfu)
      simp [jsonRowLoop, ctxErr, he]
    | none =>
      rw [firstUnknown, hfu] at h
      have hnone : (parseObject r).find? (fun kv => !ks.contains kv.1) = none := by
        have h2 := hfu
        simp only [firstUnknownIn] at h2
        cases hf2 : (parseObject r).find? (fun kv => !ks.contains kv.1) with
        | none => rfl
        | some kv => rw [hf2] at h2; simp at h2
      obtain ⟨out, hout⟩ := jsonInsertVals_all_known_ok lib (parseObject r) ks idx [] hnone
      simpa [jsonRowLoop, ctxErr, hout] using ih (idx + 1) (poll + 1) ks _ j nm h

/-- C7: the column set of a returned record-path table equals the field set
of the first decoded record, whatever fields later records carry (non-strict
mode, first conjunct, the names arriving in sorted order); in strict mode the
first unknown field of a record after the first aborts the call with the
unknown-field error naming that row and field (second conjunct). -/
theorem claim_C7_schema_stability_and_strict_mode :
    ∀ (lib : GoStdlib) (r0 : JRecord) (rest : List JRecord) (j : Nat) (nm : String),
    (outcomeNames (LoadFromJSON lib none (r0 :: rest) none)
        = some (sortStrings ((parseObject r0).map Prod.fst)))
  ∧ (firstUnknown ((parseObject r0).map Prod.fst) rest 1 = some (j, nm) →
      LoadFromJSON lib none (r0 :: rest) (some strictOnlyOptions)
        = Outcome.err (GoError.unknownField j nm)) := by
  intro lib r0 rest j nm
  constructor
  · obtain ⟨ins, hins⟩ :=
      jsonInsertVals_none_known_ok lib none (Or.inl rfl) (parseObject r0) 0 []
    obtain ⟨df2, hloop, hnames⟩ := jsonRowLoop_ok_names lib none (Or.inl rfl) rfl rest 1 1
      ((parseObject r0).map Prod.fst)
      (dfUpdateRow (dfAppendNil (DataFrame.mk ((parseObject r0).map
        (fun kv => jsonSeriesFor none none kv.1)))) 0 ins)
    have hstep : jsonRowLoop lib none none none (r0 :: rest) 0 0 none
        = Except.ok (some df2) := by
      simp only [jsonRowLoop, ctxErr, hins, Option.isNone_none, Bool.false_eq_true,
        if_false, if_true, ite_true, ite_false]
      exact hloop
    simp only [LoadFromJSON, hstep, outcomeNames]
    have hn0 : dfNames df2 = (parseObject r0).map Prod.fst := by
      rw [hnames, dfNames_updateRow, dfNames_appendNil, names_of_created]
    rw [dfNames_reorder df2 (sortStrings (dfNames df2))
      (fun n hn => mem_sortStrings n (dfNames df2) hn), hn0]
  · intro hfu
    obtain ⟨ins, hins⟩ := jsonInsertVals_none_known_ok lib (some strictOnlyOptions)
      (Or.inr ⟨strictOnlyOptions, rfl, rfl⟩) (parseObject r0) 0 []
    have hloop := jsonRowLoop_strict_unknown lib rest 1 1 ((parseObject r0).map Prod.fst)
      (dfUpdateRow (dfAppendNil (DataFrame.mk ((parseObject r0).map
        (fun kv => jsonSeriesFor (some strictOnlyOptions) none kv.1)))) 0 ins) j nm hfu
    have hstep : jsonRowLoop lib none (some strictOnlyOptions) none (r0 :: rest) 0 0 none
        = Except.error (GoError.unknownField j nm) := by
      simp only [jsonRowLoop, ctxErr, hins, Option.isNone_none, Bool.false_eq_true,
        if_false, if_true, ite_true, ite_false]
      exact hloop
    have hstep2 : jsonRowLoop lib none (some (JSONLoadOptions.mk false [] true)) none
        (r0 :: rest) 0 0 none = Except.error (GoError.unknownField j nm) := hstep
    simp only [LoadFromJSON, strictOnlyOptions, Bool.false_eq_true, if_false, ite_false]
    rw [hstep2]

/-- C7 witness: first record with fields b and a, one later record carrying
known field a and unknown field c; non-strict keeps columns a and b only,
strict fails at row 1 on field c. -/
theorem claim_C7_witness :
    outcomeNames (LoadFromJSON trivialLib none (demoRecB :: demoRecRest) none)
      = some (sortStrings ((parseObject demoRecB).map Prod.fst))
  ∧ LoadFromJSON trivialLib none (demoRecB :: demoRecRest) (some strictOnlyOptions)
      = Outcome.err (GoError.unknownField 1 "c") := by
  have h := claim_C7_schema_stability_and_strict_mode trivialLib demoRecB demoRecRest 1 "c"
  exact ⟨h.1, h.2 (by decide)⟩

theorem reverseLoop_trace {α : Type} (s r : Nat) :
    ∀ (k poll : Nat) (l : List α) (tr : List (Nat × Nat)),
    ∃ l2, reverseLoop none s r k poll l tr
      = Except.ok (l2, tr ++ ((List.range k).map (fun i => (i + s, (r - 1 - i) + s))).reverse) := by
  intro k
  induction k with
  | zero => intro poll l tr; exact ⟨l, by simp [reverseLoop]⟩
  | succ k ih =>
    intro poll l tr
    obtain ⟨l2, h2⟩ :=
      ih (poll + 1) (listSwapAt l (k + s) ((r - 1 - k) + s)) (tr ++ [(k + s, (r - 1 - k) + s)])
    refine ⟨l2, ?_⟩
    simp only [reverseLoop, ctxErr]
    rw [h2, List.range_succ]
    simp [List.append_assoc]

/-- C10: the reversal utility over a valid resolved range of r rows starting
at position s performs exactly the swaps of positions i + s and (r - 1 - i) + s
for each i from 0 up to r / 2 - 1 (executed with i descending) and returns a
nil error; with zero table rows, or a range resolving to at most one row, it
performs no swaps, leaves the rows unchanged and returns a nil error. -/
theorem claim_C10_reverse_swap_loop :
    ∀ (α : Type) (rows : List α) (rng : GoRange) (s e : Nat),
    (rows.length = 0 → ∀ opts, Reverse none rows opts = Except.ok (rows, []))
  ∧ (rng.limits rows.length = Except.ok (s, e) → rows.length ≠ 0 →
      ((e + 1 - s ≤ 1 →
        Reverse none rows (some (ReverseOptions.mk (some rng) false)) = Except.ok (rows, []))
      ∧ (2 ≤ e + 1 - s →
        ∃ final, Reverse none rows (some (ReverseOptions.mk (some rng) false))
          = Except.ok (final, swapTrace s (e + 1 - s))))) := by
  intro α rows rng s e
  constructor
  · intro h0 opts
    cases opts with
    | none => simp [Reverse, h0]
    | some o => simp [Reverse, h0]
  · intro hlim hne
    have hr : rangeNRows rng rows.length = e + 1 - s := by simp [rangeNRows, hlim]
    constructor
    · intro hle
      have h1 : e + 1 - s = 1 ∨ e + 1 - s = 0 := by omega
      simp [Reverse, hlim, hr, hne, h1]
    · intro hge
      obtain ⟨l2, h2⟩ := reverseLoop_trace s (e + 1 - s) ((e + 1 - s) / 2) 0 rows []
      refine ⟨l2, ?_⟩
      have hc : ¬ (e + 1 - s = 1 ∨ e + 1 - s = 0) := by omega
      simp only [Reverse, hlim, hr, hne, if_false, ite_false, hc]
      rw [h2]
      simp [swapTrace]

/-- C10 witness: the theorem applied to a four-row table under the full
default range, which resolves to start 0 and four rows. -/
theorem claim_C10_witness :
    defaultRange.limits 4 = Except.ok (0, 3)
  ∧ (∃ final, Reverse none ([0, 1, 2, 3] : List Nat)
      (some (ReverseOptions.mk (some defaultRange) false))
      = Except.ok (final, swapTrace 0 4)) := by
  refine ⟨rfl, ?_⟩
  exact ((claim_C10_reverse_swap_loop Nat [0, 1, 2, 3] defaultRange 0 3).2 rfl
    (by decide)).2 (by decide)
